import Mathlib

/-!
Verification of the lab-dashboard backend (tools/lab-dashboard/backend) —
a shallow embedding in Lean 4 of the single-flight execution, log-streaming,
run-state and parallel-probe logic, together with theorems settling the
specification claims about it.

Source files embedded:
  * `executor.py`   — global execution lock, `acquire_operation`,
                      `stream_subprocess`, `run_sync`.
  * `routers/playbooks.py` — run-state persistence and `ws_run_playbook`.
  * `routers/provision.py` — `ws_provision` / `ws_deprovision`.
  * `routers/vm_metrics.py` — `_collect_one`, `_parse_output`,
                      `get_vm_metrics` (parallel probe).

All string manipulation is modelled over `List Char` (`String.data`) so that
every definition is executable and concrete instances evaluate by `decide`.
-/

namespace LabDashboard

/-! ## Python string primitives

Executable models of the Python `str` operations the backend uses.
`str.strip()` / `str.split()` treat the ASCII whitespace characters below as
separators (the repository only ever feeds ASCII command output through them).
-/

/-- Whitespace set of Python `str.strip` / `str.split` (ASCII part). -/
def pySpace (c : Char) : Bool :=
  c = ' ' || c = '\t' || c = '\n' || c = '\r' || c = '\x0b' || c = '\x0c'

/-- Remove leading and trailing whitespace from a character list. -/
def stripChars (cs : List Char) : List Char :=
  ((cs.dropWhile pySpace).reverse.dropWhile pySpace).reverse

/-- Python `s.strip()`. -/
def pyStrip (s : String) : String := ⟨stripChars s.data⟩

/-- Python `s.rstrip("\r\n")` — used by the streamer to trim line endings. -/
def rstripCRLF (s : String) : String :=
  ⟨(s.data.reverse.dropWhile (fun c => c = '\r' || c = '\n')).reverse⟩

/-- Python `s.startswith(pre)`. -/
def pyStartsWith (s pre : String) : Bool := pre.data.isPrefixOf s.data

/-- Whitespace-run splitter behind `pySplit` (Python `str.split()` with no
argument: split on runs of whitespace, discarding empty fields). -/
def splitWsChars : List Char → List Char → List (List Char)
  | [], acc => if acc.isEmpty then [] else [acc.reverse]
  | c :: cs, acc =>
    if pySpace c then
      if acc.isEmpty then splitWsChars cs [] else acc.reverse :: splitWsChars cs []
    else splitWsChars cs (c :: acc)

/-- Python `s.split()` (no separator argument). -/
def pySplit (s : String) : List String :=
  (splitWsChars s.data []).map fun cs => ⟨cs⟩

/-- Split a character list on a single separator character (keeping empty
fields, like Python `str.split(sep)` with an explicit separator). -/
def splitOnChar (sep : Char) : List Char → List Char → List (List Char)
  | [], acc => [acc.reverse]
  | c :: cs, acc =>
    if c = sep then acc.reverse :: splitOnChar sep cs []
    else splitOnChar sep cs (c :: acc)

/-- Python `s.splitlines()` restricted to `"\n"` and `"\r\n"` terminators —
the only ones occurring in `traceback.format_exc()` output and in merged
subprocess output on this code path.  A trailing terminator produces no
trailing empty line, as in Python. -/
def pySplitlines (s : String) : List String :=
  let parts := (splitOnChar '\n' s.data []).map fun cs =>
    (cs.reverse.dropWhile (fun c => c = '\r')).reverse
  let parts := match parts.reverse with
    | [] => []
    | last :: rest => if last.isEmpty then rest.reverse else parts
  parts.map fun cs => ⟨cs⟩

/-- Nonempty all-digit character list (`\d+` over ASCII input). -/
def isDigits (cs : List Char) : Bool :=
  !cs.isEmpty && cs.all fun c => c.isDigit

/-- Numeric value of an all-digit character list. -/
def digitsToNat (cs : List Char) : Nat :=
  cs.foldl (fun acc c => 10 * acc + (c.toNat - '0'.toNat)) 0

/-- Python `int(s)`: optional surrounding whitespace, optional sign, digits.
Returns `none` where Python raises `ValueError`.  (Underscore digit grouping,
which never occurs in the probed command output, is treated as invalid.) -/
def pyToInt (s : String) : Option Int :=
  let cs := stripChars s.data
  match cs with
  | '+' :: body => if isDigits body then some (digitsToNat body) else none
  | '-' :: body => if isDigits body then some (-(digitsToNat body : Int)) else none
  | body => if isDigits body then some (digitsToNat body) else none

/-- `tb.strip().splitlines()[-1]` — the last line of a traceback, as the
handlers surface it to the browser.  (`format_exc()` is never empty, so the
Python indexing never fails; on the empty string we return `""`.) -/
def lastTbLine (tb : String) : String :=
  (pySplitlines (pyStrip tb)).getLastD ""

/-- Python `" ".join(parts)`. -/
def joinSpace : List String → String
  | [] => ""
  | [s] => s
  | s :: rest => s ++ " " ++ joinSpace rest

/-! ## Single-flight executor — `executor.py`

The execution slot is the module-level pair of `_execution_lock`
(an `asyncio.Lock`) and `_current_operation` (the label).  We model the lock
holder as an `Option` of a task id — an `asyncio.Lock` has at most one holder
by construction — and the label as an `Option String`.

Granularity: asyncio is cooperatively scheduled, and in `acquire_operation`
there is no suspension point between the lock acquisition resuming and
`_current_operation = label`, nor between the `finally` clause's
`_current_operation = None` and the lock release in `__aexit__`.  Each of the
two pairs is therefore one atomic transition of the observable state.
-/

/-- The process-wide execution slot: `_execution_lock` + `_current_operation`. -/
structure ExecState where
  holder : Option Nat
  currentOperation : Option String
deriving DecidableEq

/-- Slot state at process start: lock free, label `None`. -/
def initExec : ExecState := ⟨none, none⟩

/-- `is_busy()` — `_execution_lock.locked()`. -/
def isBusy (s : ExecState) : Bool := s.holder.isSome

/-- The two atomic transitions of `acquire_operation`: enter (lock acquired
and label set) and exit (label cleared and lock released, from the `finally`
clause and `__aexit__`). -/
inductive ExecEvent where
  | acquire (tid : Nat) (label : String)
  | release (tid : Nat)
deriving DecidableEq

/-- One observable transition of the slot.  `acquire` fires only when the
lock is free (a second caller suspends — the event does not fire for it);
`release` fires only for the task actually holding the lock. -/
def execStep (s : ExecState) : ExecEvent → Option ExecState
  | .acquire tid label =>
    if s.holder = none then some ⟨some tid, some label⟩ else none
  | .release tid =>
    if s.holder = some tid then some ⟨none, none⟩ else none

/-- Run a sequence of slot events from a state. -/
def runExec (s : ExecState) : List ExecEvent → Option ExecState
  | [] => some s
  | e :: es =>
    match execStep s e with
    | none => none
    | some s' => runExec s' es

/-- The data-model invariant of the slot: the label is non-null iff the lock
is held. -/
def labelHeldInv (s : ExecState) : Prop :=
  s.currentOperation.isSome ↔ s.holder.isSome

/-- What the wrapped `yield` of `acquire_operation` does: completes, raises,
or is cancelled.  The release path is identical for all three (`finally`). -/
inductive BodyOutcome where
  | completed
  | raised (msg : String)
  | cancelled
deriving DecidableEq

/-- `acquire_operation(label)` as a bracket: acquire the slot, run the body
(whatever its outcome), then — unconditionally, from the `finally` clause —
clear the label and release the lock, re-raising the body's outcome.
Returns `(state while the body runs, state after exit, outcome)`;
`none` when the lock is already held (the caller would suspend instead). -/
def acquireOperation (tid : Nat) (label : String) (s : ExecState)
    (body : BodyOutcome) : Option (ExecState × ExecState × BodyOutcome) :=
  match execStep s (.acquire tid label) with
  | none => none
  | some held =>
    match execStep held (.release tid) with
    | none => none
    | some fin => some (held, fin, body)

/-! ## Process streamer — `stream_subprocess` / `_run_in_thread`

`_run_in_thread` runs `subprocess.Popen`, reads the merged stdout/stderr
pipe line by line (each decoded with `errors="replace"` — which never raises —
and `rstrip("\r\n")`-ed), enqueues each line, then after `proc.wait()`
enqueues the `[EXIT]` sentinel.  Any exception inside the `try` block is
caught and converted into a single `[ERROR]` line; the `finally` clause posts
the `None` end-of-stream sentinel, so the async consumer simply drains the
queue — no exception crosses the generator boundary.

The external world the thread interacts with is modelled by `ProcOutcome`:
the launch (`Popen`) raises, the read loop / wait raises after some lines, or
the process runs to exit with a code.  `streamLines` is the full sequence the
async generator yields for each of those worlds.
-/

/-- What the external process layer does for one command. -/
inductive ProcOutcome where
  | launchFailed (tb : String)
  | readFailed (linesBefore : List String) (tb : String)
  | exited (rawLines : List String) (code : Int)
deriving DecidableEq

/-- Decode one raw pipe line as `_run_in_thread` does: the utf-8
`errors="replace"` decode is total (modelled as identity on the already-text
line) followed by `rstrip("\r\n")`. -/
def decodeLine (s : String) : String := rstripCRLF s

/-- The `[EXIT]` sentinel posted after `proc.wait()`. -/
def exitSentinel (code : Int) : String :=
  if code = 0 then "[EXIT] Process finished successfully (exit code 0)"
  else "[EXIT] Process failed with exit code " ++ toString code

/-- The `[ERROR]` line posted when the `try` block of `_run_in_thread`
raises. -/
def errorLine (tb : String) : String :=
  "[ERROR] Subprocess failed to start: " ++ lastTbLine tb

/-- The complete line sequence `stream_subprocess` yields to its consumer
for a given process-layer outcome. -/
def streamLines : ProcOutcome → List String
  | .launchFailed tb => [errorLine tb]
  | .readFailed ls tb => ls.map decodeLine ++ [errorLine tb]
  | .exited ls code => ls.map decodeLine ++ [exitSentinel code]

/-! ## Run-state store — `routers/playbooks.py`

`run-state.json` is a JSON object mapping playbook file name to
`{"result": ..., "ran_at": ...}`.  A Python dict preserves insertion order
and assignment overwrites in place, so the store is an association list with
in-place upsert.  `_save_state` is atomic on disk (tmp file + rename); the
claims are about store contents, so we model `load`/`save` as the identity
on the mapping and `reset_run_state` as saving the empty mapping.
-/

/-- One persisted run record: `result` is `"success"`/`"failed"`, `ran_at`
an ISO-8601 timestamp string. -/
structure RunRecord where
  result : String
  ranAt : String
deriving DecidableEq

/-- The run-state mapping (insertion-ordered, as a Python dict / JSON
object). -/
abbrev RunStore := List (String × RunRecord)

/-- Dict lookup. -/
def lookupStore (st : RunStore) (k : String) : Option RunRecord :=
  match st with
  | [] => none
  | (k', v) :: rest => if k' = k then some v else lookupStore rest k

/-- Dict assignment `state[k] = v`: overwrite in place, else append. -/
def upsertStore (st : RunStore) (k : String) (v : RunRecord) : RunStore :=
  match st with
  | [] => [(k, v)]
  | (k', v') :: rest =>
    if k' = k then (k, v) :: rest else (k', v') :: upsertStore rest k v

/-- `_record_result(name, result)`: load, upsert with the current timestamp,
save. -/
def recordResult (st : RunStore) (name result now : String) : RunStore :=
  upsertStore st name ⟨result, now⟩

/-- `reset_run_state()`: save the empty mapping. -/
def resetRunState : RunStore := []

/-- `_succeeded(last_line)` in `provision.py` (and the inlined check in
`ws_run_playbook`'s `finally`). -/
def succeeded (lastLine : String) : Bool :=
  pyStartsWith lastLine "[EXIT] Process finished successfully"

/-! ## WebSocket sessions — `ws_run_playbook`, `ws_provision`, `ws_deprovision`

Each handler, after `accept()`, (a) rejects immediately with one `[BUSY]`
message when `executor.is_busy()`, otherwise (b) sends `[START]` and `[CMD]`,
iterates `stream_subprocess` forwarding each line and remembering the last
successfully forwarded one, and (c) in `finally` updates the run-state store
from that last line.  `WebSocketDisconnect` is swallowed; any other exception
sends one `[ERROR]` line (best effort).

The observer is modelled by when (if ever) `send_text` starts raising:
sends are numbered from 0 in program order.  A `disconnect` failure is
permanent (every later send also raises `WebSocketDisconnect`); an `other`
failure models a one-off internal error raising at exactly that send.
-/

/-- How a `send_text` call can fail. -/
inductive SendFail where
  | disconnect
  | other (tb : String)
deriving DecidableEq

/-- The remote observer: `failFrom = some (k, kind)` makes send number `k`
raise `kind` (and, for `disconnect`, every send after it as well). -/
structure Observer where
  failFrom : Option (Nat × SendFail)
deriving DecidableEq

/-- Does send number `i` succeed? -/
def sendOk (o : Observer) (i : Nat) : Bool :=
  match o.failFrom with
  | none => true
  | some (k, .disconnect) => decide (i < k)
  | some (k, .other _) => decide (i ≠ k)

/-- The failure kind raised by a failing send (meaningful only when some
send fails). -/
def sendFailKind (o : Observer) : SendFail :=
  match o.failFrom with
  | some (_, kind) => kind
  | none => .disconnect

/-- Result of the forwarding loop
`async for line in stream_subprocess(cmd): await ws.send_text(line); last_line = line`. -/
structure LoopResult where
  sent : List String
  lastLine : String
  nextIdx : Nat
  raised : Option SendFail
deriving DecidableEq

/-- Forward stream lines to the observer starting at send index `i`;
`last` is the last line forwarded so far and `acc` the (reversed) lines
forwarded so far.  Stops at the first failing send (the exception aborts the
loop; `last_line` is not updated for the failing line). -/
def forwardLoop (o : Observer) : List String → Nat → String → List String → LoopResult
  | [], i, last, acc => ⟨acc.reverse, last, i, none⟩
  | l :: ls, i, last, acc =>
    if sendOk o i then forwardLoop o ls (i + 1) l (l :: acc)
    else ⟨acc.reverse, last, i + 1, some (sendFailKind o)⟩

/-- Result of a handler's `try`/`except` body. -/
structure TryResult where
  sent : List String
  streamSent : List String
  lastLine : String
  launched : Bool
deriving DecidableEq

/-- The `[ERROR]` send attempted by the `except Exception` arm (itself
wrapped in `try: ... except Exception: pass`). -/
def errExcSend (o : Observer) (i : Nat) (tb : String) : List String :=
  if sendOk o i then ["[ERROR] " ++ lastTbLine tb] else []

/-- The `try` block shared by the three streaming handlers: optional
pre-acquire preparation that may raise (`_write_provision_json` in
`ws_provision`), then under `acquire_operation`: send `[START]` (send 0),
send `[CMD]` (send 1), then iterate `stream_subprocess` from send 2.
The subprocess is launched iff the iteration is reached.  `WebSocketDisconnect`
is passed over; an `other` exception leads to one best-effort `[ERROR]` send. -/
def runTryBlock (startMsg cmdMsg : String) (o : Observer)
    (outcome : ProcOutcome) (prepFail : Option String) : TryResult :=
  match prepFail with
  | some tb =>
    { sent := errExcSend o 0 tb, streamSent := [], lastLine := "", launched := false }
  | none =>
    if sendOk o 0 then
      if sendOk o 1 then
        let lr := forwardLoop o (streamLines outcome) 2 "" []
        let extra := match lr.raised with
          | some (.other tb) => errExcSend o lr.nextIdx tb
          | _ => []
        { sent := startMsg :: cmdMsg :: (lr.sent ++ extra),
          streamSent := lr.sent, lastLine := lr.lastLine, launched := true }
      else
        let extra := match sendFailKind o with
          | .other tb => errExcSend o 2 tb
          | .disconnect => []
        { sent := startMsg :: extra, streamSent := [], lastLine := "", launched := false }
    else
      let extra := match sendFailKind o with
        | .other tb => errExcSend o 1 tb
        | .disconnect => []
      { sent := extra, streamSent := [], lastLine := "", launched := false }

/-- Observable outcome of one handler invocation. -/
structure HandlerOut where
  sent : List String
  streamSent : List String
  lastLine : String
  launched : Bool
  store : RunStore
deriving DecidableEq

/-- Environment of one `ws_provision` / `ws_deprovision` call. -/
structure ProvisionWorld where
  busyWith : Option String
  prepFail : Option String
  outcome : ProcOutcome
  observer : Observer
deriving DecidableEq

/-- Static configuration values read from `config` by the handlers. -/
structure BackendCfg where
  wslDistro : String
  ansibleDirWsl : String
  provisionScript : String
  deprovisionScript : String
  jsonCfgPath : String
deriving DecidableEq

/-- The `[CMD]` line of `ws_provision`. -/
def provisionCmdMsg (cfg : BackendCfg) : String :=
  "[CMD] " ++ joinSpace ["powershell.exe", "-NonInteractive", "-ExecutionPolicy",
    "Bypass", "-File", cfg.provisionScript, "-ConfigFile", cfg.jsonCfgPath]

/-- The `[CMD]` line of `ws_deprovision`. -/
def deprovisionCmdMsg (cfg : BackendCfg) : String :=
  "[CMD] " ++ joinSpace ["powershell.exe", "-NonInteractive", "-ExecutionPolicy",
    "Bypass", "-File", cfg.deprovisionScript, "-Force"]

/-- `ws_provision`: busy check (single `[BUSY]` message and close), else the
streaming `try` block; in `finally`, reset the run-state store iff
`_succeeded(last_line)`. -/
def wsProvision (cfg : BackendCfg) (store : RunStore) (w : ProvisionWorld) : HandlerOut :=
  match w.busyWith with
  | some lbl =>
    { sent := if sendOk w.observer 0 then
        ["[BUSY] Cannot provision: another operation is running: " ++ lbl] else [],
      streamSent := [], lastLine := "", launched := false, store := store }
  | none =>
    let tr := runTryBlock "[START] Provision VMs" (provisionCmdMsg cfg)
      w.observer w.outcome w.prepFail
    { sent := tr.sent, streamSent := tr.streamSent, lastLine := tr.lastLine,
      launched := tr.launched,
      store := if succeeded tr.lastLine then resetRunState else store }

/-- `ws_deprovision`: identical shape; no pre-acquire preparation step. -/
def wsDeprovision (cfg : BackendCfg) (store : RunStore) (w : ProvisionWorld) : HandlerOut :=
  match w.busyWith with
  | some lbl =>
    { sent := if sendOk w.observer 0 then
        ["[BUSY] Cannot deprovision: another operation is running: " ++ lbl] else [],
      streamSent := [], lastLine := "", launched := false, store := store }
  | none =>
    let tr := runTryBlock "[START] Deprovision VMs" (deprovisionCmdMsg cfg)
      w.observer w.outcome none
    { sent := tr.sent, streamSent := tr.streamSent, lastLine := tr.lastLine,
      launched := tr.launched,
      store := if succeeded tr.lastLine then resetRunState else store }

/-- Environment of one `ws_run_playbook` call. -/
structure PlaybookWorld where
  playbookFound : Bool
  busyWith : Option String
  outcome : ProcOutcome
  observer : Observer
  now : String
deriving DecidableEq

/-- The `[CMD]` line of `ws_run_playbook`. -/
def playbookCmdMsg (cfg : BackendCfg) (name : String) : String :=
  "[CMD] wsl -d " ++ cfg.wslDistro ++ " -- bash -c \"cd " ++ cfg.ansibleDirWsl
    ++ " && ansible-playbook playbooks/" ++ name ++ "\""

/-- `ws_run_playbook`: existence check, busy check (each a single message
and close, before the `try`), else the streaming `try` block; in `finally`,
always `_record_result(name, "success"/"failed")` from `last_line`. -/
def wsRunPlaybook (cfg : BackendCfg) (name : String) (store : RunStore)
    (w : PlaybookWorld) : HandlerOut :=
  if w.playbookFound = false then
    { sent := if sendOk w.observer 0 then
        ["[ERROR] Playbook not found or invalid: " ++ name] else [],
      streamSent := [], lastLine := "", launched := false, store := store }
  else
    match w.busyWith with
    | some lbl =>
      { sent := if sendOk w.observer 0 then
          ["[BUSY] Another operation is running: " ++ lbl] else [],
        streamSent := [], lastLine := "", launched := false, store := store }
    | none =>
      let tr := runTryBlock ("[START] Ansible: " ++ name) (playbookCmdMsg cfg name)
        w.observer w.outcome none
      { sent := tr.sent, streamSent := tr.streamSent, lastLine := tr.lastLine,
        launched := tr.launched,
        store := recordResult store name
          (if succeeded tr.lastLine then "success" else "failed") w.now }

/-! ## Observer disconnect vs. the running operation — interleaving model

`stream_subprocess` starts `_run_in_thread` with
`loop.run_in_executor(None, _run_in_thread)` and never awaits or cancels the
returned future: the reader thread (and the `Popen` process it drives) runs
on regardless of what happens to the async consumer.  The async handler
(`ws_provision` etc.) holds the execution slot, drains the queue and forwards
lines; a send on a disconnected websocket raises `WebSocketDisconnect`,
which unwinds the handler through `acquire_operation`'s `finally` — clearing
the label and releasing the lock — and is then swallowed.

`liveStep` is the joint small-step system of the two actors plus the
observer: `procEmit`/`procFinish` are the reader thread's actions (enabled
purely by the process's own state), `handlerRecv` is the handler consuming
one queue item (forwarding it, or unwinding if the websocket is gone), and
`wsDrop` is the observer disconnecting. -/

/-- Joint state of slot, reader thread, hand-off queue, handler and
observer for one in-flight exclusive operation.  `q` holds the enqueued
lines; the entry `none` is the end-of-stream sentinel. -/
structure LiveState where
  exec : ExecState
  procPending : List String
  exitCode : Int
  procExited : Bool
  q : List (Option String)
  wsOpen : Bool
  forwarded : List String
  handlerDone : Bool
deriving DecidableEq

/-- Scheduler events of the joint system. -/
inductive LiveEvent where
  | acquireSlot (label : String)
  | procEmit
  | procFinish
  | wsDrop
  | handlerRecv
deriving DecidableEq

/-- One interleaved step.  `none` means the event is not enabled in this
state (that actor is blocked or already finished). -/
def liveStep (s : LiveState) : LiveEvent → Option LiveState
  | .acquireSlot label =>
    match execStep s.exec (.acquire 0 label) with
    | none => none
    | some e => some { s with exec := e }
  | .procEmit =>
    match s.procPending with
    | [] => none
    | l :: rest =>
      some { s with procPending := rest, q := s.q ++ [some (decodeLine l)] }
  | .procFinish =>
    if s.procPending.isEmpty && !s.procExited then
      some { s with procExited := true,
                    q := s.q ++ [some (exitSentinel s.exitCode), none] }
    else none
  | .wsDrop =>
    if s.wsOpen then some { s with wsOpen := false } else none
  | .handlerRecv =>
    if s.handlerDone then none
    else
      match s.q with
      | [] => none
      | none :: rest =>
        match execStep s.exec (.release 0) with
        | none => none
        | some e => some { s with q := rest, handlerDone := true, exec := e }
      | some l :: rest =>
        if s.wsOpen then
          some { s with q := rest, forwarded := s.forwarded ++ [l] }
        else
          match execStep s.exec (.release 0) with
          | none => none
          | some e => some { s with q := rest, handlerDone := true, exec := e }

/-- Run a sequence of interleaved events. -/
def runLive (s : LiveState) : List LiveEvent → Option LiveState
  | [] => some s
  | e :: es =>
    match liveStep s e with
    | none => none
    | some s' => runLive s' es

/-- Session start: slot free, process yet to emit `lines` and exit with
`code`, observer connected. -/
def startLive (lines : List String) (code : Int) : LiveState :=
  ⟨initExec, lines, code, false, [], true, [], false⟩

/-! ## Parallel probe — `routers/vm_metrics.py`

`_collect_one` SSHes into one VM (via `run_sync`, whose timeout caps the
call's duration) and parses the combined output of
`nproc; free -m; df -h /; cat /proc/loadavg; uptime -p` with `_parse_output`.
`get_vm_metrics` submits one `_collect_one` per configured VM to a
`ThreadPoolExecutor(max_workers=len(vms_to_query))`, gathers results in
completion order via `as_completed`, and re-sorts them with the stable
`list.sort` keyed by each VM name's position in the configured order.
-/

/-- The per-VM probe result (`VMMetrics` pydantic model).  `load_1m` is kept
as the text captured by the load-average regex: the source applies `float()`
to it, which cannot fail on a `\d+\.\d+` match, so presence/absence — all
the claims speak about — is unchanged. -/
structure VMMetrics where
  name : String
  ip : String
  reachable : Bool
  cpuThreads : Option Int
  load1m : Option String
  ramTotalMb : Option Int
  ramUsedMb : Option Int
  ramAvailMb : Option Int
  diskTotal : Option String
  diskUsed : Option String
  diskAvail : Option String
  diskUsePct : Option Int
  uptime : Option String
  error : Option String
deriving DecidableEq

/-- `[l for l in raw.strip().splitlines() if l.strip()]`. -/
def nonblankLines (raw : String) : List String :=
  (pySplitlines (pyStrip raw)).filter fun l => !(stripChars l.data).isEmpty

/-- The `Mem:` row update.  Mirrors the `try` block exactly: the three
`int(...)` assignments run in order inside one `except`, so a `ValueError`
partway through keeps the assignments already made and leaves the rest at
their previous values. -/
def memRowUpdate (prev : Option Int × Option Int × Option Int) (line : String) :
    Option Int × Option Int × Option Int :=
  if pyStartsWith line "Mem:" then
    let parts := pySplit line
    if 7 ≤ parts.length then
      match pyToInt (parts.getD 1 "") with
      | none => prev
      | some t =>
        match pyToInt (parts.getD 2 "") with
        | none => (some t, prev.2.1, prev.2.2)
        | some u =>
          match pyToInt (parts.getD 6 "") with
          | none => (some t, some u, prev.2.2)
          | some a => (some t, some u, some a)
    else prev
  else prev

/-- `re.match(r'^\S+\s+(\S+)\s+(\S+)\s+(\S+)\s+(\d+)%\s+/$', line)`.
Because `\S`/`\s` are complementary, a match forces the line to consist of
exactly six whitespace-separated fields with no leading or trailing
whitespace, the fifth field being digits followed by `%` and the sixth the
single character `/`; the captures are fields 2–4 and the digits. -/
def diskRowMatch (line : String) : Option (String × String × String × Int) :=
  match pySplit line with
  | [_, t1, t2, t3, t4, t5] =>
    let cs := line.data
    let p := t4.data.dropLast
    if pySpace (cs.headD ' ') then none
    else if pySpace (cs.getLastD ' ') then none
    else if t5 ≠ "/" then none
    else if t4.data.getLastD ' ' ≠ '%' then none
    else if !isDigits p then none
    else some (t1, t2, t3, (digitsToNat p : Int))
  | _ => none

/-- `\d+\.\d+` as a whole whitespace-delimited field. -/
def isFixedFloat (s : String) : Bool :=
  match splitOnChar '.' s.data [] with
  | [a, b] => isDigits a && isDigits b
  | _ => false

/-- `\d+/\d+` as a whole whitespace-delimited field. -/
def isLoadFrac (s : String) : Bool :=
  match splitOnChar '/' s.data [] with
  | [a, b] => isDigits a && isDigits b
  | _ => false

/-- `re.match(r'^(\d+\.\d+)\s+\d+\.\d+\s+\d+\.\d+\s+\d+/\d+\s+\d+$', line)`:
five whitespace-separated fields, no leading/trailing whitespace, of the
shapes shown; returns the first capture. -/
def loadRowMatch (line : String) : Option String :=
  match pySplit line with
  | [t0, t1, t2, t3, t4] =>
    let cs := line.data
    if pySpace (cs.headD ' ') then none
    else if pySpace (cs.getLastD ' ') then none
    else if isFixedFloat t0 && isFixedFloat t1 && isFixedFloat t2
        && isLoadFrac t3 && isDigits t4.data then some t0
    else none
  | _ => none

/-- Mutable locals of `_parse_output`'s scan over `lines[1:]`. -/
structure ParseAcc where
  load1m : Option String
  ram : Option Int × Option Int × Option Int
  disk : Option (String × String × String × Int)
  uptime : Option String
deriving DecidableEq

/-- One iteration of the `for line in lines[1:]` loop: the four matchers are
applied independently to the line (they are separate `if`s, not `elif`s),
each overwriting only its own fields on a match. -/
def parseStep (acc : ParseAcc) (line : String) : ParseAcc :=
  { load1m := match loadRowMatch line with
      | some t => some t
      | none => acc.load1m,
    ram := memRowUpdate acc.ram line,
    disk := match diskRowMatch line with
      | some d => some d
      | none => acc.disk,
    uptime := if pyStartsWith line "up " then some (pyStrip line) else acc.uptime }

/-- `_parse_output(name, ip, raw)`: strip blank lines, read `nproc` from the
first line (`None` when missing or malformed — the `except` arm), scan the
remaining lines with the four matchers, and return a `reachable=True`
record.  The function is total: every malformed input degrades to `None`
fields, never an exception. -/
def parseOutput (name ip : String) (raw : String) : VMMetrics :=
  let lines := nonblankLines raw
  let acc := (lines.drop 1).foldl parseStep ⟨none, (none, none, none), none, none⟩
  { name := name, ip := ip, reachable := true,
    cpuThreads := pyToInt (pyStrip (lines.headD "")),
    load1m := acc.load1m,
    ramTotalMb := acc.ram.1, ramUsedMb := acc.ram.2.1, ramAvailMb := acc.ram.2.2,
    diskTotal := acc.disk.map fun d => d.1,
    diskUsed := acc.disk.map fun d => d.2.1,
    diskAvail := acc.disk.map fun d => d.2.2.1,
    diskUsePct := acc.disk.map fun d => d.2.2.2,
    uptime := acc.uptime, error := none }

/-- What one SSH round trip returns to `run_sync`: exit status and combined
output. -/
structure ProbeEnv where
  rc : Int
  output : String
deriving DecidableEq

/-- The `rc != 0` arm of `_collect_one`: unreachable, all metrics `None`,
`error = output.strip()[:200] or "SSH failed"`. -/
def unreachableMetrics (name ip out : String) : VMMetrics :=
  { name := name, ip := ip, reachable := false,
    cpuThreads := none, load1m := none,
    ramTotalMb := none, ramUsedMb := none, ramAvailMb := none,
    diskTotal := none, diskUsed := none, diskAvail := none, diskUsePct := none,
    uptime := none,
    error := some (let t := (stripChars out.data).take 200
                   if t.isEmpty then "SSH failed" else ⟨t⟩) }

/-- `_collect_one(name, ip)` given what the SSH layer did. -/
def collectOne (name ip : String) (env : ProbeEnv) : VMMetrics :=
  if env.rc ≠ 0 then unreachableMetrics name ip env.output
  else parseOutput name ip env.output

/-! ### Independent per-field scans (for the independence statement of C8) -/

/-- Uptime scan alone over the tail lines. -/
def scanUptime (ls : List String) : Option String :=
  ls.foldl (fun u line => if pyStartsWith line "up " then some (pyStrip line) else u) none

/-- Load-average scan alone over the tail lines. -/
def scanLoad (ls : List String) : Option String :=
  ls.foldl (fun v line => match loadRowMatch line with
    | some t => some t
    | none => v) none

/-- Disk scan alone over the tail lines. -/
def scanDisk (ls : List String) : Option (String × String × String × Int) :=
  ls.foldl (fun v line => match diskRowMatch line with
    | some d => some d
    | none => v) none

/-- Memory scan alone over the tail lines. -/
def scanRam (ls : List String) : Option Int × Option Int × Option Int :=
  ls.foldl memRowUpdate (none, none, none)

/-! ### Result reordering — `get_vm_metrics`

`get_vm_metrics` builds `order = {name: i for i, (name, _) in enumerate(vms_to_query)}`
(a later duplicate name overwrites an earlier index), appends results in
whatever order the futures complete, and re-sorts with the *stable*
`results.sort(key=lambda m: order.get(m.name, 99))`.  We model the dict, the
completion order (any permutation of the per-target results), and Python's
stable sort (insertion placing each new element after existing elements of
equal key, which is exactly the stability contract of `list.sort`).
-/

/-- One probe target: a configured VM's name and planned IP. -/
structure Target where
  name : String
  ip : String
deriving DecidableEq

/-- Lookup in the order dict. -/
def lookupNat : List (String × Nat) → String → Option Nat
  | [], _ => none
  | (k', v) :: rest, k => if k' = k then some v else lookupNat rest k

/-- Dict assignment for the order dict. -/
def upsertNat (d : List (String × Nat)) (k : String) (v : Nat) : List (String × Nat) :=
  match d with
  | [] => [(k, v)]
  | (k', v') :: rest =>
    if k' = k then (k, v) :: rest else (k', v') :: upsertNat rest k v

/-- `{name: i for i, (name, _) in enumerate(vms_to_query)}`, built from
index `i` on. -/
def buildOrderFrom (i : Nat) : List Target → List (String × Nat) → List (String × Nat)
  | [], d => d
  | t :: ts, d => buildOrderFrom (i + 1) ts (upsertNat d t.name i)

/-- The completed order dict. -/
def buildOrder (ts : List Target) : List (String × Nat) :=
  buildOrderFrom 0 ts []

/-- `order.get(m.name, 99)`. -/
def orderKey (ts : List Target) (m : VMMetrics) : Nat :=
  (lookupNat (buildOrder ts) m.name).getD 99

/-- Stable insertion: the new element goes after every element whose key is
`≤` its own — exactly how a stable sort treats an element appended last
among equals. -/
def insertByKey (key : α → Nat) (x : α) : List α → List α
  | [] => [x]
  | y :: ys => if key y ≤ key x then y :: insertByKey key x ys else x :: y :: ys

/-- Stable sort by key (Python `list.sort(key=...)`): fold the list
left-to-right into a sorted accumulator. -/
def sortByKey (key : α → Nat) (l : List α) : List α :=
  l.foldl (fun acc x => insertByKey key x acc) []

/-- The per-target collections, in caller-supplied (input) order. -/
def collectedInOrder (targets : List Target) (envs : List ProbeEnv) : List VMMetrics :=
  List.zipWith (fun t e => collectOne t.name t.ip e) targets envs

/-- The result list `get_vm_metrics` returns, given the list of results in
completion order. -/
def sortResults (targets : List Target) (completed : List VMMetrics) : List VMMetrics :=
  sortByKey (orderKey targets) completed

/-! ### Probe latency — cost model of the worker pool

`get_vm_metrics` uses `ThreadPoolExecutor(max_workers=len(vms_to_query))` —
one worker per target — and every `_collect_one` call blocks in `run_sync`,
whose `subprocess.run(..., timeout=_SSH_CONNECT_TIMEOUT + 3)` caps the
call's wall-clock duration at the per-target timeout (the `TimeoutExpired`
arm returns immediately after it fires).  We model the pool as greedy list
scheduling: each job is handed to a least-loaded worker (an idle worker has
load 0), a worker's load is the sum of the durations it runs, and the
makespan is the largest final load.  With at least as many workers as jobs —
the pool sizing the source always uses — every job runs on an otherwise idle
worker, so the makespan is bounded by the single largest per-job duration. -/

/-- `_SSH_CONNECT_TIMEOUT` (seconds). -/
def sshConnectTimeout : Nat := 5

/-- The `run_sync` timeout used by `_collect_one`:
`_SSH_CONNECT_TIMEOUT + 3`. -/
def runSyncTimeout : Nat := sshConnectTimeout + 3

/-- Hand a job of duration `d` to the first least-loaded worker. -/
def addToMin (d : Nat) : List Nat → List Nat
  | [] => []
  | x :: xs => if xs.all (fun y => x ≤ y) then (x + d) :: xs else x :: addToMin d xs

/-- Final worker loads after greedily scheduling `ds` on `w` workers. -/
def poolLoads (w : Nat) (ds : List Nat) : List Nat :=
  ds.foldl (fun loads d => addToMin d loads) (List.replicate w 0)

/-- Wall-clock completion time of the whole probe fan-out. -/
def poolMakespan (w : Nat) (ds : List Nat) : Nat :=
  (poolLoads w ds).foldr max 0

/-! ## Theorems -/

lemma execStep_inv {s s' : ExecState} {e : ExecEvent}
    (_hs : labelHeldInv s) (h : execStep s e = some s') : labelHeldInv s' := by
  cases e with
  | acquire tid label =>
    by_cases hh : s.holder = none
    · simp [execStep, hh] at h
      subst h; simp [labelHeldInv]
    · simp [execStep, hh] at h
  | release tid =>
    by_cases hh : s.holder = some tid
    · simp [execStep, hh] at h
      subst h; simp [labelHeldInv]
    · simp [execStep, hh] at h

lemma runExec_inv {s s' : ExecState} {evs : List ExecEvent}
    (hs : labelHeldInv s) (h : runExec s evs = some s') : labelHeldInv s' := by
  induction evs generalizing s with
  | nil => simp [runExec] at h; rwa [← h]
  | cons e es ih =>
    simp only [runExec] at h
    cases he : execStep s e with
    | none => rw [he] at h; exact absurd h (by simp)
    | some s₁ =>
      rw [he] at h
      exact ih (execStep_inv hs he) h

/-- **C1.** The execution slot is a single mutual-exclusion cell with at most
one holder: (i) along every event sequence from process start the label is
non-null iff the slot is held; (ii) while the slot is held no second acquire
can fire; and (iii) every use of `acquire_operation` on a free slot holds the
slot with its label for the duration of the body and — whether the body
completes, raises, or is cancelled — exits with the slot free and the label
null. -/
theorem C1_slot_singleton_label_release :
    (∀ evs s, runExec initExec evs = some s → labelHeldInv s)
    ∧ (∀ (s : ExecState) (tid : Nat) (lbl : String),
        s.holder ≠ none → execStep s (.acquire tid lbl) = none)
    ∧ (∀ (s : ExecState) (tid : Nat) (lbl : String) (body : BodyOutcome),
        s.holder = none →
        acquireOperation tid lbl s body =
          some (⟨some tid, some lbl⟩, ⟨none, none⟩, body)) := by
  refine ⟨?_, ?_, ?_⟩
  · intro evs s h
    exact runExec_inv (by simp [initExec, labelHeldInv]) h
  · intro s tid lbl h
    simp [execStep, h]
  · intro s tid lbl body h
    simp [acquireOperation, execStep, h]

/-- Witness for C1 at concrete inputs: the invariant after a concrete run,
a blocked second acquire, and a concrete bracket (with a raising body)
ending free and unlabelled. -/
theorem C1_witness :
    labelHeldInv ⟨some 0, some "Provision VMs"⟩
    ∧ execStep ⟨some 0, some "Provision VMs"⟩ (.acquire 1 "Ansible: x.yml") = none
    ∧ acquireOperation 0 "Provision VMs" initExec (.raised "boom") =
        some (⟨some 0, some "Provision VMs"⟩, ⟨none, none⟩, .raised "boom") := by
  refine ⟨?_, ?_, ?_⟩
  · have h := C1_slot_singleton_label_release.1 [.acquire 0 "Provision VMs"]
      ⟨some 0, some "Provision VMs"⟩ (by decide)
    exact h
  · exact C1_slot_singleton_label_release.2.1 ⟨some 0, some "Provision VMs"⟩ 1
      "Ansible: x.yml" (by decide)
  · exact C1_slot_singleton_label_release.2.2 initExec 0 "Provision VMs"
      (.raised "boom") (by decide)

lemma pyStartsWith_append_of_prefix (pre lit s : String)
    (h : pre.data.isPrefixOf lit.data = true)
    : pyStartsWith (lit ++ s) pre = true := by
  have hp : pre.data <+: lit.data := by
    exact List.isPrefixOf_iff_prefix.mp h
  have : pre.data <+: (lit ++ s).data := by
    rw [String.data_append]
    exact hp.trans (List.prefix_append _ _)
  simpa [pyStartsWith, List.isPrefixOf_iff_prefix] using this

/-- **C4.** When the process fails to launch (executable missing, permission
denied, any `Popen` exception), the streamed sequence is exactly one line:
it begins with `"[ERROR] "`, ends with the last line of the failure detail,
is not an `[EXIT]` line (no element of the sequence is), and the streamer
remains a total function — no exception reaches the consumer. -/
theorem C4_launch_failure_single_error_line (tb : String) :
    streamLines (.launchFailed tb) = [errorLine tb]
    ∧ (streamLines (.launchFailed tb)).length = 1
    ∧ pyStartsWith (errorLine tb) "[ERROR] " = true
    ∧ errorLine tb = "[ERROR] Subprocess failed to start: " ++ lastTbLine tb
    ∧ (∀ l ∈ streamLines (.launchFailed tb), pyStartsWith l "[EXIT]" = false) := by
  refine ⟨rfl, rfl, ?_, rfl, ?_⟩
  · exact pyStartsWith_append_of_prefix "[ERROR] "
      "[ERROR] Subprocess failed to start: " (lastTbLine tb) (by decide)
  · intro l hl
    simp only [streamLines, List.mem_singleton] at hl
    subst hl
    have h : ("[ERROR] Subprocess failed to start: " ++ lastTbLine tb).data
        = '[' :: 'E' :: 'R' :: ("ROR] Subprocess failed to start: ".data
            ++ (lastTbLine tb).data) := by
      simp [String.data_append]
    simp [pyStartsWith, errorLine, h, List.isPrefixOf]

/-- Witness for C4 at a concrete traceback. -/
theorem C4_witness :
    streamLines (.launchFailed "Traceback (most recent call last):\n  ...\nFileNotFoundError: powershell.exe")
      = ["[ERROR] Subprocess failed to start: FileNotFoundError: powershell.exe"]
    ∧ pyStartsWith "[ERROR] Subprocess failed to start: FileNotFoundError: powershell.exe" "[EXIT]" = false := by
  have h := C4_launch_failure_single_error_line
    "Traceback (most recent call last):\n  ...\nFileNotFoundError: powershell.exe"
  refine ⟨?_, ?_⟩
  · rw [h.1]
    decide
  · have h5 := h.2.2.2.2
    have hm : ("[ERROR] Subprocess failed to start: FileNotFoundError: powershell.exe" : String)
        ∈ streamLines (.launchFailed "Traceback (most recent call last):\n  ...\nFileNotFoundError: powershell.exe") := by
      rw [h.1]; decide
    exact h5 _ hm

/-- **C3.** For every command that launches and runs to process exit, the
streamed sequence ends with exactly one synthetic sentinel line — the
sequence is the decoded process output plus exactly one extra line, its last:
`"[EXIT] Process finished successfully (exit code 0)"` on exit code 0 and
`"[EXIT] Process failed with exit code N"` on every nonzero code N. -/
theorem C3_exit_sentinel_last (raw : List String) (code : Int) :
    (streamLines (.exited raw code)).getLast? = some (exitSentinel code)
    ∧ (streamLines (.exited raw code)).length = raw.length + 1
    ∧ (code = 0 →
        exitSentinel code = "[EXIT] Process finished successfully (exit code 0)")
    ∧ (code ≠ 0 →
        exitSentinel code = "[EXIT] Process failed with exit code " ++ toString code) := by
  refine ⟨?_, ?_, ?_, ?_⟩
  · simp [streamLines]
  · simp [streamLines]
  · intro h; simp [exitSentinel, h]
  · intro h; simp [exitSentinel, h]

/-- Witness for C3: a successful run and a failing run (exit code 2) of a
two-line command, with their sentinels evaluated. -/
theorem C3_witness :
    (streamLines (.exited ["ok line\r\n", "done"] 0)).getLast?
      = some "[EXIT] Process finished successfully (exit code 0)"
    ∧ (streamLines (.exited ["oops"] 2)).getLast?
      = some "[EXIT] Process failed with exit code 2" := by
  constructor
  · have h := (C3_exit_sentinel_last ["ok line\r\n", "done"] 0).1
    rw [h]
    have h0 := (C3_exit_sentinel_last ["ok line\r\n", "done"] 0).2.2.1 rfl
    rw [h0]
  · have h := (C3_exit_sentinel_last ["oops"] 2).1
    rw [h]
    have h2 := (C3_exit_sentinel_last ["oops"] 2).2.2.2 (by decide)
    rw [h2]
    rfl

/-! ### Supporting lemmas for the session theorems -/

lemma not_pyStartsWith_append {pfx lit : String} (s : String)
    (hlen : pfx.data.length ≤ lit.data.length)
    (hne : pfx.data.isPrefixOf lit.data = false)
    : pyStartsWith (lit ++ s) pfx = false := by
  by_contra hcon
  simp only [pyStartsWith, Bool.not_eq_false, List.isPrefixOf_iff_prefix,
    String.data_append] at hcon
  have h2 : pfx.data <+: lit.data :=
    (List.isPrefix_append_of_length hlen).mp hcon
  rw [← List.isPrefixOf_iff_prefix] at h2
  simp [hne] at h2

lemma getLastD_cons_default (a : α) (as : List α) (d₁ d₂ : α) :
    (a :: as).getLastD d₁ = (a :: as).getLastD d₂ := by
  rw [List.getLastD_cons, List.getLastD_cons]

lemma succeeded_exitSentinel_zero : succeeded (exitSentinel 0) = true := by decide

lemma succeeded_exitSentinel_ne_zero {code : Int} (h : code ≠ 0) :
    succeeded (exitSentinel code) = false := by
  have hs : exitSentinel code
      = "[EXIT] Process failed with exit code " ++ toString code := by
    simp [exitSentinel, h]
  rw [succeeded, hs]
  exact not_pyStartsWith_append (toString code) (by decide) (by decide)

lemma succeeded_errorLine (tb : String) : succeeded (errorLine tb) = false := by
  rw [succeeded, errorLine]
  exact not_pyStartsWith_append (lastTbLine tb) (by decide) (by decide)

/-- A `forwardLoop` call only prepends its accumulator to the lines it
forwards; everything else is independent of the accumulator. -/
lemma forwardLoop_acc (o : Observer) (ls : List String) :
    ∀ (i : Nat) (last : String) (acc : List String),
    forwardLoop o ls i last acc =
      ⟨acc.reverse ++ (forwardLoop o ls i last []).sent,
       (forwardLoop o ls i last []).lastLine,
       (forwardLoop o ls i last []).nextIdx,
       (forwardLoop o ls i last []).raised⟩ := by
  induction ls with
  | nil => intro i last acc; simp [forwardLoop]
  | cons l rest ih =>
    intro i last acc
    by_cases hok : sendOk o i
    · simp only [forwardLoop, hok, if_pos]
      rw [ih (i + 1) l (l :: acc), ih (i + 1) l [l]]
      simp
    · simp [forwardLoop, hok]

/-- `last_line` is the last line forwarded so far (or its initial value when
nothing was forwarded). -/
lemma forwardLoop_lastLine (o : Observer) (ls : List String) :
    ∀ (i : Nat) (last : String),
    (forwardLoop o ls i last []).lastLine
      = (forwardLoop o ls i last []).sent.getLastD last := by
  induction ls with
  | nil => intro i last; simp [forwardLoop]
  | cons l rest ih =>
    intro i last
    by_cases hok : sendOk o i
    · simp only [forwardLoop, hok, if_pos]
      rw [forwardLoop_acc o rest (i + 1) l [l]]
      simp only [List.reverse_cons, List.reverse_nil, List.nil_append]
      rw [ih (i + 1) l]
      cases hs : (forwardLoop o rest (i + 1) l []).sent with
      | nil => simp
      | cons a as => exact getLastD_cons_default a as l last
    · simp [forwardLoop, hok]

/-- With the observer connected throughout, the loop forwards every line and
`last_line` ends as the stream's last line. -/
lemma forwardLoop_connected (o : Observer) (h : o.failFrom = none)
    (ls : List String) : ∀ (i : Nat) (last : String),
    (forwardLoop o ls i last []).sent = ls
    ∧ (forwardLoop o ls i last []).lastLine = ls.getLastD last := by
  induction ls with
  | nil => intro i last; simp [forwardLoop]
  | cons l rest ih =>
    intro i last
    have hok : sendOk o i = true := by simp [sendOk, h]
    simp only [forwardLoop, hok, if_pos]
    rw [forwardLoop_acc o rest (i + 1) l [l]]
    refine ⟨?_, ?_⟩
    · simp [(ih (i + 1) l).1]
    · simp only
      rw [(ih (i + 1) l).2]
      cases rest with
      | nil => simp
      | cons b bs => exact getLastD_cons_default b bs l last

/-- In every world, the `try` block's `last_line` is the last stream line it
forwarded (empty when none was). -/
lemma runTryBlock_lastLine (startMsg cmdMsg : String) (o : Observer)
    (outcome : ProcOutcome) (prepFail : Option String) :
    (runTryBlock startMsg cmdMsg o outcome prepFail).lastLine
      = (runTryBlock startMsg cmdMsg o outcome prepFail).streamSent.getLastD "" := by
  cases prepFail with
  | some tb => simp [runTryBlock]
  | none =>
    by_cases h0 : sendOk o 0
    · by_cases h1 : sendOk o 1
      · simp only [runTryBlock, h0, h1, if_pos]
        exact forwardLoop_lastLine o (streamLines outcome) 2 ""
      · simp [runTryBlock, h0, h1]
    · simp [runTryBlock, h0]

/-- With a connected observer and no preparation failure, the `try` block's
`last_line` is the stream's own last line. -/
lemma runTryBlock_connected (startMsg cmdMsg : String) (o : Observer)
    (h : o.failFrom = none) (outcome : ProcOutcome) :
    (runTryBlock startMsg cmdMsg o outcome none).lastLine
      = (streamLines outcome).getLastD "" := by
  have h0 : sendOk o 0 = true := by simp [sendOk, h]
  have h1 : sendOk o 1 = true := by simp [sendOk, h]
  simp only [runTryBlock, h0, h1, if_pos]
  exact (forwardLoop_connected o h (streamLines outcome) 2 "").2

lemma streamLines_exited_getLastD (raw : List String) (code : Int) :
    (streamLines (.exited raw code)).getLastD "" = exitSentinel code := by
  simp [streamLines]

/-- **C2.** A request for an exclusive operation (playbook run, provision,
deprovision) arriving while the executor is busy is rejected before any work
happens: the observer receives exactly one `[BUSY]` message naming the
in-flight operation's label, no subprocess is launched, nothing is streamed,
and the run-state store is untouched. -/
theorem C2_busy_rejection :
    (∀ cfg store lbl prep outcome obs,
      let out := wsProvision cfg store ⟨some lbl, prep, outcome, obs⟩
      out.launched = false ∧ out.store = store ∧ out.streamSent = []
      ∧ (obs.failFrom = none →
          out.sent = ["[BUSY] Cannot provision: another operation is running: " ++ lbl]))
    ∧ (∀ cfg store lbl prep outcome obs,
      let out := wsDeprovision cfg store ⟨some lbl, prep, outcome, obs⟩
      out.launched = false ∧ out.store = store ∧ out.streamSent = []
      ∧ (obs.failFrom = none →
          out.sent = ["[BUSY] Cannot deprovision: another operation is running: " ++ lbl]))
    ∧ (∀ cfg name store lbl outcome obs now,
      let out := wsRunPlaybook cfg name store ⟨true, some lbl, outcome, obs, now⟩
      out.launched = false ∧ out.store = store ∧ out.streamSent = []
      ∧ (obs.failFrom = none →
          out.sent = ["[BUSY] Another operation is running: " ++ lbl])) := by
  refine ⟨?_, ?_, ?_⟩
  · intro cfg store lbl prep outcome obs
    refine ⟨rfl, rfl, rfl, fun h => ?_⟩
    simp [wsProvision, sendOk, h]
  · intro cfg store lbl prep outcome obs
    refine ⟨rfl, rfl, rfl, fun h => ?_⟩
    simp [wsDeprovision, sendOk, h]
  · intro cfg name store lbl outcome obs now
    refine ⟨rfl, rfl, rfl, fun h => ?_⟩
    simp [wsRunPlaybook, sendOk, h]

/-- Witness for C2: a concrete busy provision request and a concrete busy
playbook request. -/
theorem C2_witness :
    (wsProvision ⟨"Ubuntu", "/a", "p.ps1", "d.ps1", "v.json"⟩
        [("01-networking.yml", ⟨"success", "t0"⟩)]
        ⟨some "Ansible: 01-networking.yml", none, .exited ["x"] 0, ⟨none⟩⟩).launched = false
    ∧ (wsProvision ⟨"Ubuntu", "/a", "p.ps1", "d.ps1", "v.json"⟩
        [("01-networking.yml", ⟨"success", "t0"⟩)]
        ⟨some "Ansible: 01-networking.yml", none, .exited ["x"] 0, ⟨none⟩⟩).store
      = [("01-networking.yml", ⟨"success", "t0"⟩)]
    ∧ (wsProvision ⟨"Ubuntu", "/a", "p.ps1", "d.ps1", "v.json"⟩
        [("01-networking.yml", ⟨"success", "t0"⟩)]
        ⟨some "Ansible: 01-networking.yml", none, .exited ["x"] 0, ⟨none⟩⟩).sent
      = ["[BUSY] Cannot provision: another operation is running: Ansible: 01-networking.yml"]
    ∧ (wsRunPlaybook ⟨"Ubuntu", "/a", "p.ps1", "d.ps1", "v.json"⟩ "02-k8s.yml"
        [] ⟨true, some "Provision VMs", .exited [] 0, ⟨none⟩, "t1"⟩).sent
      = ["[BUSY] Another operation is running: Provision VMs"] := by
  have hp := C2_busy_rejection.1 ⟨"Ubuntu", "/a", "p.ps1", "d.ps1", "v.json"⟩
    [("01-networking.yml", ⟨"success", "t0"⟩)] "Ansible: 01-networking.yml"
    none (.exited ["x"] 0) ⟨none⟩
  have hb := C2_busy_rejection.2.2 ⟨"Ubuntu", "/a", "p.ps1", "d.ps1", "v.json"⟩
    "02-k8s.yml" [] "Provision VMs" (.exited [] 0) ⟨none⟩ "t1"
  exact ⟨hp.1, hp.2.1, hp.2.2.2 rfl, hb.2.2.2 rfl⟩

lemma lookupStore_upsert (st : RunStore) (k : String) (v : RunRecord) :
    lookupStore (upsertStore st k v) k = some v := by
  induction st with
  | nil => simp [upsertStore, lookupStore]
  | cons kv rest ih =>
    obtain ⟨k', v'⟩ := kv
    by_cases h : k' = k
    · simp [upsertStore, lookupStore, h]
    · simp [upsertStore, lookupStore, h, ih]

/-- **C5.** For every provision and every deprovision run: the run-state
store is cleared exactly when `_succeeded` holds of the last line forwarded
to the observer, and in particular — with the observer connected — a run
whose last streamed line is the success sentinel (exit code 0) empties the
store whatever it held before, while a nonzero exit or a launch failure
leaves the prior store untouched. -/
theorem C5_reset_run_state_on_success :
    (∀ cfg store prep outcome obs,
      let out := wsProvision cfg store ⟨none, prep, outcome, obs⟩
      out.store = if succeeded out.lastLine then resetRunState else store)
    ∧ (∀ cfg store outcome obs,
      let out := wsDeprovision cfg store ⟨none, none, outcome, obs⟩
      out.store = if succeeded out.lastLine then resetRunState else store)
    ∧ (∀ cfg store raw (obs : Observer), obs.failFrom = none →
      (wsProvision cfg store ⟨none, none, .exited raw 0, obs⟩).store = []
      ∧ (wsDeprovision cfg store ⟨none, none, .exited raw 0, obs⟩).store = [])
    ∧ (∀ cfg store raw code (obs : Observer), code ≠ 0 → obs.failFrom = none →
      (wsProvision cfg store ⟨none, none, .exited raw code, obs⟩).store = store
      ∧ (wsDeprovision cfg store ⟨none, none, .exited raw code, obs⟩).store = store)
    ∧ (∀ cfg store tb (obs : Observer), obs.failFrom = none →
      (wsProvision cfg store ⟨none, none, .launchFailed tb, obs⟩).store = store
      ∧ (wsDeprovision cfg store ⟨none, none, .launchFailed tb, obs⟩).store = store) := by
  refine ⟨fun _ _ _ _ _ => rfl, fun _ _ _ _ => rfl, ?_, ?_, ?_⟩
  · intro cfg store raw obs h
    constructor
    · show (if succeeded (runTryBlock "[START] Provision VMs" (provisionCmdMsg cfg)
          obs (.exited raw 0) none).lastLine then resetRunState else store) = []
      rw [runTryBlock_connected _ _ _ h, streamLines_exited_getLastD,
        succeeded_exitSentinel_zero]
      rfl
    · show (if succeeded (runTryBlock "[START] Deprovision VMs" (deprovisionCmdMsg cfg)
          obs (.exited raw 0) none).lastLine then resetRunState else store) = []
      rw [runTryBlock_connected _ _ _ h, streamLines_exited_getLastD,
        succeeded_exitSentinel_zero]
      rfl
  · intro cfg store raw code obs hc h
    constructor
    · show (if succeeded (runTryBlock "[START] Provision VMs" (provisionCmdMsg cfg)
          obs (.exited raw code) none).lastLine then resetRunState else store) = store
      rw [runTryBlock_connected _ _ _ h, streamLines_exited_getLastD,
        succeeded_exitSentinel_ne_zero hc]
      rfl
    · show (if succeeded (runTryBlock "[START] Deprovision VMs" (deprovisionCmdMsg cfg)
          obs (.exited raw code) none).lastLine then resetRunState else store) = store
      rw [runTryBlock_connected _ _ _ h, streamLines_exited_getLastD,
        succeeded_exitSentinel_ne_zero hc]
      rfl
  · intro cfg store tb obs h
    constructor
    · show (if succeeded (runTryBlock "[START] Provision VMs" (provisionCmdMsg cfg)
          obs (.launchFailed tb) none).lastLine then resetRunState else store) = store
      rw [runTryBlock_connected _ _ _ h]
      show (if succeeded ([errorLine tb].getLastD "") then resetRunState else store) = store
      simp [succeeded_errorLine]
    · show (if succeeded (runTryBlock "[START] Deprovision VMs" (deprovisionCmdMsg cfg)
          obs (.launchFailed tb) none).lastLine then resetRunState else store) = store
      rw [runTryBlock_connected _ _ _ h]
      show (if succeeded ([errorLine tb].getLastD "") then resetRunState else store) = store
      simp [succeeded_errorLine]

/-- Witness for C5: a successful provision clears a concretely populated
store; a deprovision that exits 1 leaves it untouched. -/
theorem C5_witness :
    (wsProvision ⟨"Ubuntu", "/a", "p.ps1", "d.ps1", "v.json"⟩
        [("01-networking.yml", ⟨"success", "t0"⟩), ("02-k8s.yml", ⟨"failed", "t1"⟩)]
        ⟨none, none, .exited ["Creating VM..."] 0, ⟨none⟩⟩).store = []
    ∧ (wsDeprovision ⟨"Ubuntu", "/a", "p.ps1", "d.ps1", "v.json"⟩
        [("01-networking.yml", ⟨"success", "t0"⟩)]
        ⟨none, none, .exited ["boom"] 1, ⟨none⟩⟩).store
      = [("01-networking.yml", ⟨"success", "t0"⟩)] := by
  constructor
  · exact (C5_reset_run_state_on_success.2.2.1 ⟨"Ubuntu", "/a", "p.ps1", "d.ps1", "v.json"⟩
      [("01-networking.yml", ⟨"success", "t0"⟩), ("02-k8s.yml", ⟨"failed", "t1"⟩)]
      ["Creating VM..."] ⟨none⟩ rfl).1
  · exact (C5_reset_run_state_on_success.2.2.2.1 ⟨"Ubuntu", "/a", "p.ps1", "d.ps1", "v.json"⟩
      [("01-networking.yml", ⟨"success", "t0"⟩)] ["boom"] 1 ⟨none⟩ (by decide) rfl).2

/-- **C10.** Every websocket playbook run that passes the existence check and
the busy check writes a run record for that playbook name when the handler
exits — whatever the outcome, the disconnect point, or any internal error —
with the handler's timestamp, result `"success"` exactly when the last line
forwarded to the observer begins with `"[EXIT] Process finished successfully"`
and `"failed"` otherwise; and `last_line` is precisely the last forwarded
stream line (empty when none was forwarded). -/
theorem C10_playbook_record_always_written (cfg : BackendCfg) (name : String)
    (store : RunStore) (w : PlaybookWorld)
    (hfound : w.playbookFound = true) (hfree : w.busyWith = none) :
    lookupStore (wsRunPlaybook cfg name store w).store name
      = some ⟨if succeeded (wsRunPlaybook cfg name store w).lastLine
                then "success" else "failed", w.now⟩
    ∧ (wsRunPlaybook cfg name store w).lastLine
      = (wsRunPlaybook cfg name store w).streamSent.getLastD "" := by
  obtain ⟨pf, bw, outcome, obs, now⟩ := w
  simp only at hfound hfree
  subst hfound hfree
  constructor
  · show lookupStore (recordResult store name _ now) name = _
    rw [recordResult, lookupStore_upsert]
    rfl
  · exact runTryBlock_lastLine _ _ _ _ _

/-- Witness for C10: a run that streams to the success sentinel records
`"success"`; a run whose observer disconnects before the process finishes
records `"failed"` (here: disconnect at the first stream line). -/
theorem C10_witness :
    lookupStore (wsRunPlaybook ⟨"Ubuntu", "/a", "p.ps1", "d.ps1", "v.json"⟩
        "01-networking.yml" []
        ⟨true, none, .exited ["PLAY RECAP"] 0, ⟨none⟩, "t2"⟩).store "01-networking.yml"
      = some ⟨"success", "t2"⟩
    ∧ lookupStore (wsRunPlaybook ⟨"Ubuntu", "/a", "p.ps1", "d.ps1", "v.json"⟩
        "01-networking.yml" []
        ⟨true, none, .exited ["PLAY RECAP"] 0, ⟨some (2, .disconnect)⟩, "t3"⟩).store
        "01-networking.yml"
      = some ⟨"failed", "t3"⟩ := by
  constructor
  · have h := (C10_playbook_record_always_written ⟨"Ubuntu", "/a", "p.ps1", "d.ps1", "v.json"⟩
      "01-networking.yml" [] ⟨true, none, .exited ["PLAY RECAP"] 0, ⟨none⟩, "t2"⟩ rfl rfl).1
    exact h.trans (by decide)
  · have h := (C10_playbook_record_always_written ⟨"Ubuntu", "/a", "p.ps1", "d.ps1", "v.json"⟩
      "01-networking.yml" [] ⟨true, none, .exited ["PLAY RECAP"] 0,
        ⟨some (2, .disconnect)⟩, "t3"⟩ rfl rfl).1
    exact h.trans (by decide)

/-- **C6, counterexample.** The claim says the executor's hold on the slot
continues until the operation's natural completion even if the observer
disconnects.  It does not: in this concrete interleaving the observer drops
after the first forwarded line, the handler's next send raises, the
unconditional-release guarantee frees the slot — and the final state has the
slot free (`holder = none`, label `none`) while the subprocess has *not*
exited (`procExited = false`). -/
theorem C6_counterexample :
    runLive (startLive ["a", "b"] 0)
        [.acquireSlot "Provision VMs", .procEmit, .handlerRecv, .wsDrop,
         .procEmit, .handlerRecv]
      = some ⟨⟨none, none⟩, [], 0, false, [], false, ["a"], true⟩ := by
  decide

lemma liveStep_closed_ws {s s' : LiveState} {e : LiveEvent}
    (h : liveStep s e = some s') (hws : s.wsOpen = false) :
    s'.forwarded = s.forwarded ∧ s'.wsOpen = false := by
  cases e with
  | acquireSlot label =>
    cases he : execStep s.exec (.acquire 0 label) with
    | none => simp [liveStep, he] at h
    | some ex => simp [liveStep, he] at h; subst h; simp [hws]
  | procEmit =>
    cases hp : s.procPending with
    | nil => simp [liveStep, hp] at h
    | cons l rest => simp [liveStep, hp] at h; subst h; simp [hws]
  | procFinish =>
    by_cases hc : (s.procPending.isEmpty && !s.procExited) = true
    · simp [liveStep, hc] at h; subst h; simp [hws]
    · simp [liveStep, hc] at h
  | wsDrop => simp [liveStep, hws] at h
  | handlerRecv =>
    by_cases hd : s.handlerDone
    · simp [liveStep, hd] at h
    · cases hq : s.q with
      | nil => simp [liveStep, hd, hq] at h
      | cons item rest =>
        cases item with
        | none =>
          cases he : execStep s.exec (.release 0) with
          | none => simp [liveStep, hd, hq, he] at h
          | some ex => simp [liveStep, hd, hq, he] at h; subst h; simp [hws]
        | some l =>
          cases he : execStep s.exec (.release 0) with
          | none => simp [liveStep, hd, hq, hws, he] at h
          | some ex => simp [liveStep, hd, hq, hws, he] at h; subst h; simp [hws]

lemma runLive_closed_ws {evs : List LiveEvent} :
    ∀ {s s' : LiveState}, runLive s evs = some s' → s.wsOpen = false →
    s'.forwarded = s.forwarded := by
  induction evs with
  | nil => intro s s' h hws; simp [runLive] at h; rw [← h]
  | cons e es ih =>
    intro s s' h hws
    simp only [runLive] at h
    cases he : liveStep s e with
    | none => rw [he] at h; exact absurd h (by simp)
    | some s₁ =>
      rw [he] at h
      have hc := liveStep_closed_ws he hws
      rw [ih h hc.2, hc.1]

lemma procEmit_enabled {s : LiveState} {l : String} {rest : List String}
    (hp : s.procPending = l :: rest) :
    liveStep s .procEmit
      = some { s with procPending := rest, q := s.q ++ [some (decodeLine l)] } := by
  simp [liveStep, hp]

lemma procCanFinish : ∀ (pend : List String) (s : LiveState),
    s.procPending = pend → s.procExited = false →
    ∃ s', runLive s (List.replicate pend.length .procEmit ++ [.procFinish]) = some s'
      ∧ s'.procExited = true := by
  intro pend
  induction pend with
  | nil =>
    intro s hp hx
    let s₁ : LiveState :=
      { s with procExited := true, q := s.q ++ [some (exitSentinel s.exitCode), none] }
    refine ⟨s₁, ?_, rfl⟩
    simp [runLive, liveStep, hp, hx, s₁]
  | cons l rest ih =>
    intro s hp hx
    have hstep := procEmit_enabled hp
    obtain ⟨s', hrun, hx'⟩ := ih
      { s with procPending := rest, q := s.q ++ [some (decodeLine l)] } rfl hx
    refine ⟨s', ?_, hx'⟩
    simp only [List.length_cons, List.replicate_succ, List.cons_append, runLive, hstep]
    exact hrun

/-- **C6, amended.** If the observer disconnects mid-stream: (i) nothing
further is ever forwarded under any interleaving; (ii) the subprocess is
never killed — from any state in which it has not exited it can always run
to natural completion, whatever the observer and handler state; but
(iii) the execution slot does *not* stay held until natural completion: the
moment the handler consumes a queue item with the websocket closed, it
unwinds and the slot is released (`holder = none`, label `none`). -/
theorem C6_amended_disconnect_behaviour :
    (∀ (evs : List LiveEvent) (s s' : LiveState),
      runLive s evs = some s' → s.wsOpen = false → s'.forwarded = s.forwarded)
    ∧ (∀ s : LiveState, s.procExited = false →
      ∃ s', runLive s (List.replicate s.procPending.length .procEmit
        ++ [.procFinish]) = some s' ∧ s'.procExited = true)
    ∧ (∀ s s' : LiveState, liveStep s .handlerRecv = some s' →
      s.wsOpen = false → s'.handlerDone = true ∧ s'.exec = ⟨none, none⟩) := by
  refine ⟨fun evs s s' h hws => runLive_closed_ws h hws, ?_, ?_⟩
  · intro s hx
    exact procCanFinish s.procPending s rfl hx
  · intro s s' h hws
    by_cases hd : s.handlerDone
    · simp [liveStep, hd] at h
    · cases hq : s.q with
      | nil => simp [liveStep, hd, hq] at h
      | cons item rest =>
        cases item with
        | none =>
          cases he : execStep s.exec (.release 0) with
          | none => simp [liveStep, hd, hq, he] at h
          | some ex =>
            simp [liveStep, hd, hq, he] at h
            have hex : ex = ⟨none, none⟩ := by
              by_cases hh : s.exec.holder = some 0
              · simp [execStep, hh] at he; exact he.symm
              · simp [execStep, hh] at he
            subst h; simp [hex]
        | some l =>
          cases he : execStep s.exec (.release 0) with
          | none => simp [liveStep, hd, hq, hws, he] at h
          | some ex =>
            simp [liveStep, hd, hq, hws, he] at h
            have hex : ex = ⟨none, none⟩ := by
              by_cases hh : s.exec.holder = some 0
              · simp [execStep, hh] at he; exact he.symm
              · simp [execStep, hh] at he
            subst h; simp [hex]

/-- Witness for the amended C6 at concrete inputs: after the counterexample
trace's disconnect point, nothing more is forwarded along a further
interleaving, the process still reaches natural completion, and the
unwinding recv released the slot. -/
theorem C6_amended_witness :
    (runLive ⟨⟨none, none⟩, ["b"], 0, false, [], false, ["a"], true⟩
        [.procEmit] = some ⟨⟨none, none⟩, [], 0, false, [some "b"], false, ["a"], true⟩
      → (⟨⟨none, none⟩, [], 0, false, [some "b"], false, ["a"], true⟩ : LiveState).forwarded
          = ["a"])
    ∧ (∃ s', runLive ⟨⟨none, none⟩, ["b"], 0, false, [], false, ["a"], true⟩
        (List.replicate (1 : Nat) .procEmit ++ [.procFinish]) = some s'
        ∧ s'.procExited = true)
    ∧ ((⟨⟨none, none⟩, [], 0, false, [], false, ["a"], true⟩ : LiveState).handlerDone = true
        ∧ (⟨⟨none, none⟩, [], 0, false, [], false, ["a"], true⟩ : LiveState).exec
          = ⟨none, none⟩) := by
  refine ⟨?_, ?_, ?_⟩
  · intro h
    exact C6_amended_disconnect_behaviour.1 [.procEmit] _ _ h rfl
  · exact C6_amended_disconnect_behaviour.2.1
      ⟨⟨none, none⟩, ["b"], 0, false, [], false, ["a"], true⟩ rfl
  · exact C6_amended_disconnect_behaviour.2.2
      ⟨⟨some 0, some "Provision VMs"⟩, [], 0, false, [some "x"], false, ["a"], false⟩
      ⟨⟨none, none⟩, [], 0, false, [], false, ["a"], true⟩ (by decide) rfl

lemma foldl_parseStep_fields (ls : List String) : ∀ (a : ParseAcc),
    (ls.foldl parseStep a).uptime
        = ls.foldl (fun u line => if pyStartsWith line "up " then some (pyStrip line) else u) a.uptime
    ∧ (ls.foldl parseStep a).load1m
        = ls.foldl (fun v line => match loadRowMatch line with
            | some t => some t
            | none => v) a.load1m
    ∧ (ls.foldl parseStep a).disk
        = ls.foldl (fun v line => match diskRowMatch line with
            | some d => some d
            | none => v) a.disk
    ∧ (ls.foldl parseStep a).ram = ls.foldl memRowUpdate a.ram := by
  induction ls with
  | nil => intro a; exact ⟨rfl, rfl, rfl, rfl⟩
  | cons l rest ih =>
    intro a
    simpa [List.foldl_cons, parseStep] using ih (parseStep a l)

lemma scanUptime_none {ls : List String}
    (h : ∀ l ∈ ls, pyStartsWith l "up " = false) : scanUptime ls = none := by
  have haux : ∀ (ls' : List String), (∀ l ∈ ls', pyStartsWith l "up " = false) →
      ∀ u, ls'.foldl (fun u line => if pyStartsWith line "up " then some (pyStrip line) else u) u = u := by
    intro ls'
    induction ls' with
    | nil => intro _ u; rfl
    | cons l rest ih =>
      intro hh u
      simp only [List.foldl_cons, hh l (by simp)]
      simpa using ih (fun x hx => hh x (by simp [hx])) u
  exact haux ls h none

lemma scanDisk_none {ls : List String}
    (h : ∀ l ∈ ls, diskRowMatch l = none) : scanDisk ls = none := by
  have haux : ∀ (ls' : List String), (∀ l ∈ ls', diskRowMatch l = none) →
      ∀ v, ls'.foldl (fun v line => match diskRowMatch line with
        | some d => some d
        | none => v) v = v := by
    intro ls'
    induction ls' with
    | nil => intro _ v; rfl
    | cons l rest ih =>
      intro hh v
      simp only [List.foldl_cons, hh l (by simp)]
      simpa using ih (fun x hx => hh x (by simp [hx])) v
  exact haux ls h none

lemma scanRam_none {ls : List String}
    (h : ∀ l ∈ ls, pyStartsWith l "Mem:" = false) :
    scanRam ls = (none, none, none) := by
  have haux : ∀ (ls' : List String), (∀ l ∈ ls', pyStartsWith l "Mem:" = false) →
      ∀ v, ls'.foldl memRowUpdate v = v := by
    intro ls'
    induction ls' with
    | nil => intro _ v; rfl
    | cons l rest ih =>
      intro hh v
      simp only [List.foldl_cons, memRowUpdate, hh l (by simp)]
      simpa using ih (fun x hx => hh x (by simp [hx])) v
  exact haux ls h _

/-- **C8.** `_parse_output` recognizes each marker line independently and
degrades gracefully: the result always has `reachable = true` and
`error = None`; the core count comes only from the first non-blank line;
the uptime, load, memory and disk fields are each exactly what an
independent scan of the remaining lines for that one marker yields —
so a missing or malformed line affects only its own fields — and whenever a
marker matches no line at all its fields are `None`.  The parser is a total
function: no input makes it raise. -/
theorem C8_parse_output_independent (name ip raw : String) :
    (parseOutput name ip raw).reachable = true
    ∧ (parseOutput name ip raw).error = none
    ∧ (parseOutput name ip raw).cpuThreads
        = pyToInt (pyStrip ((nonblankLines raw).headD ""))
    ∧ (parseOutput name ip raw).uptime = scanUptime ((nonblankLines raw).drop 1)
    ∧ (parseOutput name ip raw).load1m = scanLoad ((nonblankLines raw).drop 1)
    ∧ ((parseOutput name ip raw).ramTotalMb, (parseOutput name ip raw).ramUsedMb,
        (parseOutput name ip raw).ramAvailMb) = scanRam ((nonblankLines raw).drop 1)
    ∧ ((parseOutput name ip raw).diskTotal, (parseOutput name ip raw).diskUsed,
        (parseOutput name ip raw).diskAvail, (parseOutput name ip raw).diskUsePct)
        = ((scanDisk ((nonblankLines raw).drop 1)).map (fun d => d.1),
           (scanDisk ((nonblankLines raw).drop 1)).map (fun d => d.2.1),
           (scanDisk ((nonblankLines raw).drop 1)).map (fun d => d.2.2.1),
           (scanDisk ((nonblankLines raw).drop 1)).map (fun d => d.2.2.2))
    ∧ ((∀ l ∈ (nonblankLines raw).drop 1, pyStartsWith l "up " = false) →
        (parseOutput name ip raw).uptime = none)
    ∧ ((∀ l ∈ (nonblankLines raw).drop 1, diskRowMatch l = none) →
        (parseOutput name ip raw).diskUsePct = none)
    ∧ ((∀ l ∈ (nonblankLines raw).drop 1, pyStartsWith l "Mem:" = false) →
        (parseOutput name ip raw).ramTotalMb = none) := by
  obtain ⟨hu, hl, hd, hr⟩ := foldl_parseStep_fields ((nonblankLines raw).drop 1)
    ⟨none, (none, none, none), none, none⟩
  have hup : (parseOutput name ip raw).uptime
      = scanUptime ((nonblankLines raw).drop 1) := by
    simp only [parseOutput, scanUptime]
    exact hu
  have hld : (parseOutput name ip raw).load1m
      = scanLoad ((nonblankLines raw).drop 1) := by
    simp only [parseOutput, scanLoad]
    exact hl
  have hrm : ((parseOutput name ip raw).ramTotalMb, (parseOutput name ip raw).ramUsedMb,
      (parseOutput name ip raw).ramAvailMb) = scanRam ((nonblankLines raw).drop 1) := by
    simp only [parseOutput, scanRam]
    rw [hr]
  have hdk : ((parseOutput name ip raw).diskTotal, (parseOutput name ip raw).diskUsed,
      (parseOutput name ip raw).diskAvail, (parseOutput name ip raw).diskUsePct)
      = ((scanDisk ((nonblankLines raw).drop 1)).map (fun d => d.1),
         (scanDisk ((nonblankLines raw).drop 1)).map (fun d => d.2.1),
         (scanDisk ((nonblankLines raw).drop 1)).map (fun d => d.2.2.1),
         (scanDisk ((nonblankLines raw).drop 1)).map (fun d => d.2.2.2)) := by
    simp only [parseOutput, scanDisk]
    rw [hd]
  refine ⟨?_, ?_, ?_, hup, hld, hrm, hdk, ?_, ?_, ?_⟩
  · simp only [parseOutput]
  · simp only [parseOutput]
  · simp only [parseOutput]
  · intro h
    rw [hup]
    exact scanUptime_none h
  · intro h
    have h4 : (parseOutput name ip raw).diskUsePct
        = (scanDisk ((nonblankLines raw).drop 1)).map (fun d => d.2.2.2) := by
      have := congrArg (fun q : Option String × Option String × Option String × Option Int
        => q.2.2.2) hdk
      simpa using this
    rw [h4, scanDisk_none h]
    rfl
  · intro h
    have h1 : (parseOutput name ip raw).ramTotalMb
        = (scanRam ((nonblankLines raw).drop 1)).1 := by
      have := congrArg (fun q : Option Int × Option Int × Option Int => q.1) hrm
      simpa using this
    rw [h1, scanRam_none h]

/-- Witness for C8: the probed command returns only three of the five
expected outputs (no load-average line, no uptime line); the parse still
populates core, memory and disk fields, leaves `load_1m` and `uptime` null,
and reports the target reachable. -/
theorem C8_witness :
    (parseOutput "master" "192.168.10.11"
        "8\nMem:           16000        4100        3000          12        8900        8800\nFilesystem      Size  Used Avail Use% Mounted on\n/dev/sda1        80G   12G   68G  15% /").uptime
      = none
    ∧ parseOutput "master" "192.168.10.11"
        "8\nMem:           16000        4100        3000          12        8900        8800\nFilesystem      Size  Used Avail Use% Mounted on\n/dev/sda1        80G   12G   68G  15% /"
      = ⟨"master", "192.168.10.11", true, some 8, none, some 16000, some 4100,
          some 8800, some "80G", some "12G", some "68G", some 15, none, none⟩ := by
  constructor
  · exact (C8_parse_output_independent "master" "192.168.10.11"
      "8\nMem:           16000        4100        3000          12        8900        8800\nFilesystem      Size  Used Avail Use% Mounted on\n/dev/sda1        80G   12G   68G  15% /").2.2.2.2.2.2.2.1
      (by decide)
  · decide

lemma mem_insertByKey {key : α → Nat} {x z : α} :
    ∀ {l : List α}, z ∈ insertByKey key x l ↔ z = x ∨ z ∈ l := by
  intro l
  induction l with
  | nil => simp [insertByKey]
  | cons y ys ih =>
    by_cases h : key y ≤ key x
    · simp only [insertByKey, if_pos h, List.mem_cons, ih]
      tauto
    · simp only [insertByKey, if_neg h, List.mem_cons]

lemma insertByKey_perm (key : α → Nat) (x : α) :
    ∀ (l : List α), (insertByKey key x l).Perm (x :: l) := by
  intro l
  induction l with
  | nil => simp [insertByKey]
  | cons y ys ih =>
    by_cases h : key y ≤ key x
    · simp only [insertByKey, if_pos h]
      exact (ih.cons y).trans (List.Perm.swap x y ys)
    · simp [insertByKey, if_neg h]

lemma insertByKey_pairwise {key : α → Nat} {x : α} :
    ∀ {l : List α}, l.Pairwise (fun a b => key a ≤ key b) →
    (insertByKey key x l).Pairwise (fun a b => key a ≤ key b) := by
  intro l
  induction l with
  | nil => intro _; simp [insertByKey]
  | cons y ys ih =>
    intro h
    rw [List.pairwise_cons] at h
    by_cases hk : key y ≤ key x
    · simp only [insertByKey, if_pos hk]
      rw [List.pairwise_cons]
      refine ⟨?_, ih h.2⟩
      intro b hb
      rcases mem_insertByKey.mp hb with hbx | hby
      · subst hbx; exact hk
      · exact h.1 b hby
    · simp only [insertByKey, if_neg hk]
      rw [List.pairwise_cons]
      refine ⟨?_, List.pairwise_cons.mpr h⟩
      intro b hb
      rcases List.mem_cons.mp hb with hby | hbys
      · subst hby; omega
      · exact le_trans (by omega) (h.1 b hbys)

lemma sortByKey_aux_perm (key : α → Nat) :
    ∀ (l acc : List α),
    (l.foldl (fun acc x => insertByKey key x acc) acc).Perm (acc ++ l) := by
  intro l
  induction l with
  | nil => intro acc; simp
  | cons x xs ih =>
    intro acc
    show (xs.foldl (fun acc x => insertByKey key x acc) (insertByKey key x acc)).Perm _
    refine (ih (insertByKey key x acc)).trans ?_
    refine ((insertByKey_perm key x acc).append_right xs).trans ?_
    show (x :: (acc ++ xs)).Perm (acc ++ x :: xs)
    exact List.perm_middle.symm

lemma sortByKey_perm (key : α → Nat) (l : List α) : (sortByKey key l).Perm l := by
  simpa using sortByKey_aux_perm key l []

lemma sortByKey_pairwise (key : α → Nat) (l : List α) :
    (sortByKey key l).Pairwise (fun a b => key a ≤ key b) := by
  have haux : ∀ (l' acc : List α), acc.Pairwise (fun a b => key a ≤ key b) →
      (l'.foldl (fun acc x => insertByKey key x acc) acc).Pairwise
        (fun a b => key a ≤ key b) := by
    intro l'
    induction l' with
    | nil => intro acc h; simpa using h
    | cons x xs ih => intro acc h; exact ih _ (insertByKey_pairwise h)
  simpa [sortByKey] using haux l [] (by simp)

lemma sorted_perm_nodup_keys_eq {key : α → Nat} :
    ∀ (l₁ l₂ : List α), l₁.Perm l₂ →
    l₁.Pairwise (fun a b => key a ≤ key b) →
    l₂.Pairwise (fun a b => key a ≤ key b) →
    (l₁.map key).Nodup → l₁ = l₂ := by
  intro l₁
  induction l₁ with
  | nil =>
    intro l₂ hp _ _ _
    exact hp.nil_eq
  | cons a t₁ ih =>
    intro l₂ hp h₁ h₂ hnd
    cases l₂ with
    | nil => exact absurd hp.eq_nil (by simp)
    | cons b t₂ =>
      rw [List.pairwise_cons] at h₁ h₂
      rw [List.map_cons, List.nodup_cons] at hnd
      by_cases hab : a = b
      · subst hab
        have ht := hp.cons_inv
        rw [ih t₂ ht h₁.2 h₂.2 hnd.2]
      · exfalso
        have ha2 : a ∈ b :: t₂ := hp.mem_iff.mp (by simp)
        have hat2 : a ∈ t₂ := by
          rcases List.mem_cons.mp ha2 with h | h
          · exact absurd h hab
          · exact h
        have hb1 : b ∈ a :: t₁ := hp.symm.mem_iff.mp (by simp)
        have hbt1 : b ∈ t₁ := by
          rcases List.mem_cons.mp hb1 with h | h
          · exact absurd h.symm hab
          · exact h
        have hba : key b ≤ key a := h₂.1 a hat2
        have hab' : key a ≤ key b := h₁.1 b hbt1
        have hk : key b = key a := le_antisymm hba hab'
        exact hnd.1 (List.mem_map.mpr ⟨b, hbt1, hk⟩)

lemma collectOne_name (n i : String) (e : ProbeEnv) : (collectOne n i e).name = n := by
  by_cases h : e.rc ≠ 0
  · simp [collectOne, h, unreachableMetrics]
  · simp [collectOne, h, parseOutput]

lemma lookupNat_upsert_self (d : List (String × Nat)) (k : String) (v : Nat) :
    lookupNat (upsertNat d k v) k = some v := by
  induction d with
  | nil => simp [upsertNat, lookupNat]
  | cons kv rest ih =>
    obtain ⟨k', v'⟩ := kv
    by_cases h : k' = k
    · simp [upsertNat, lookupNat, h]
    · simp [upsertNat, lookupNat, h, ih]

lemma lookupNat_upsert_other (d : List (String × Nat)) {k k' : String} (v : Nat)
    (h : k' ≠ k) : lookupNat (upsertNat d k v) k' = lookupNat d k' := by
  have h' : k ≠ k' := Ne.symm h
  induction d with
  | nil => simp [upsertNat, lookupNat, h']
  | cons kv rest ih =>
    obtain ⟨k₀, v₀⟩ := kv
    by_cases h0 : k₀ = k
    · subst h0
      simp [upsertNat, lookupNat, h']
    · simp [upsertNat, lookupNat, h0, ih]

lemma buildOrderFrom_not_mem {nm : String} :
    ∀ (ts : List Target) (i : Nat) (d : List (String × Nat)),
    nm ∉ ts.map Target.name →
    lookupNat (buildOrderFrom i ts d) nm = lookupNat d nm := by
  intro ts
  induction ts with
  | nil => intro i d _; rfl
  | cons t rest ih =>
    intro i d h
    rw [List.map_cons, List.mem_cons] at h
    push_neg at h
    show lookupNat (buildOrderFrom (i + 1) rest (upsertNat d t.name i)) nm = _
    rw [ih (i + 1) _ h.2, lookupNat_upsert_other d i h.1]

lemma buildOrderFrom_get :
    ∀ (ts : List Target) (i : Nat) (d : List (String × Nat)),
    (ts.map Target.name).Nodup →
    ∀ (j : Nat) (hj : j < ts.length),
    lookupNat (buildOrderFrom i ts d) (ts.get ⟨j, hj⟩).name = some (i + j) := by
  intro ts
  induction ts with
  | nil => intro i d _ j hj; exact absurd hj (by simp)
  | cons t rest ih =>
    intro i d hnd j hj
    rw [List.map_cons, List.nodup_cons] at hnd
    cases j with
    | zero =>
      show lookupNat (buildOrderFrom (i + 1) rest (upsertNat d t.name i)) t.name = _
      rw [buildOrderFrom_not_mem rest (i + 1) _ hnd.1, lookupNat_upsert_self]
      simp
    | succ j' =>
      have hj' : j' < rest.length := by
        simp only [List.length_cons] at hj
        omega
      show lookupNat (buildOrderFrom (i + 1) rest (upsertNat d t.name i))
        (rest.get ⟨j', hj'⟩).name = _
      rw [ih (i + 1) _ hnd.2 j' hj']
      congr 1
      omega

lemma collected_keys (targets : List Target) (envs : List ProbeEnv)
    (hlen : envs.length = targets.length)
    (hnd : (targets.map Target.name).Nodup) :
    (collectedInOrder targets envs).map (orderKey targets)
      = List.range targets.length := by
  have hclen : (collectedInOrder targets envs).length = targets.length := by
    simp [collectedInOrder, hlen]
  apply List.ext_getElem
  · simp [hclen]
  · intro i h₁ h₂
    have hi : i < targets.length := by simpa [hclen] using h₁
    have hie : i < envs.length := by omega
    have hib : i < (collectedInOrder targets envs).length := by omega
    rw [List.getElem_map, List.getElem_range]
    have hz : (collectedInOrder targets envs)[i]
        = collectOne targets[i].name targets[i].ip envs[i] := by
      simp [collectedInOrder]
    rw [hz, orderKey, collectOne_name]
    have hb := buildOrderFrom_get targets 0 [] hnd i hi
    rw [show targets.get ⟨i, hi⟩ = targets[i] from rfl] at hb
    rw [buildOrder, hb]
    simp

/-- **C7, amended.** `get_vm_metrics` returns exactly one result per target
(the output length always equals the target count), and *provided the target
names are pairwise distinct* the returned list equals the per-target results
in caller-supplied input order, for every completion order.  (With duplicate
names the guarantee fails — see the counterexample — because the order dict
keeps only the last index per name and the stable sort leaves equal keys in
completion order.) -/
theorem C7_order_restored (targets : List Target) (envs : List ProbeEnv)
    (completed : List VMMetrics)
    (hlen : envs.length = targets.length)
    (hperm : completed.Perm (collectedInOrder targets envs)) :
    (sortResults targets completed).length = targets.length
    ∧ ((targets.map Target.name).Nodup →
        sortResults targets completed = collectedInOrder targets envs) := by
  constructor
  · rw [show sortResults targets completed = sortByKey (orderKey targets) completed
      from rfl]
    rw [(sortByKey_perm (orderKey targets) completed).length_eq, hperm.length_eq]
    simp [collectedInOrder, hlen]
  · intro hnd
    have hkeys := collected_keys targets envs hlen hnd
    have hsorted₁ : (collectedInOrder targets envs).Pairwise
        (fun a b => orderKey targets a ≤ orderKey targets b) := by
      have hmapped : ((collectedInOrder targets envs).map (orderKey targets)).Pairwise
          (fun a b => a ≤ b) := by
        rw [hkeys]
        exact (List.pairwise_lt_range targets.length).imp le_of_lt
      exact List.pairwise_map.mp hmapped
    have hnd₁ : ((collectedInOrder targets envs).map (orderKey targets)).Nodup := by
      rw [hkeys]
      exact List.nodup_range targets.length
    have hp : (collectedInOrder targets envs).Perm (sortResults targets completed) :=
      hperm.symm.trans (sortByKey_perm (orderKey targets) completed).symm
    exact (sorted_perm_nodup_keys_eq _ _ hp hsorted₁
      (sortByKey_pairwise (orderKey targets) completed) hnd₁).symm

/-- **C7, counterexample.** With two targets sharing the name `"a"`, the
order dict maps `"a"` to the *last* index only, the stable sort leaves the
two equal-keyed results in completion order, and the returned list does not
match the caller-supplied input order — refuting the claim's "for every list
of probe targets".  (The permutation conjunct checks that the completion
order used is a genuine reordering of the per-target results.) -/
theorem C7_counterexample :
    sortResults [⟨"a", "10.0.0.1"⟩, ⟨"a", "10.0.0.2"⟩]
        [collectOne "a" "10.0.0.2" ⟨0, ""⟩, collectOne "a" "10.0.0.1" ⟨0, ""⟩]
      ≠ collectedInOrder [⟨"a", "10.0.0.1"⟩, ⟨"a", "10.0.0.2"⟩] [⟨0, ""⟩, ⟨0, ""⟩]
    ∧ List.Perm [collectOne "a" "10.0.0.2" ⟨0, ""⟩, collectOne "a" "10.0.0.1" ⟨0, ""⟩]
        (collectedInOrder [⟨"a", "10.0.0.1"⟩, ⟨"a", "10.0.0.2"⟩] [⟨0, ""⟩, ⟨0, ""⟩]) := by
  constructor
  · decide
  · have he : collectedInOrder [⟨"a", "10.0.0.1"⟩, ⟨"a", "10.0.0.2"⟩] [⟨0, ""⟩, ⟨0, ""⟩]
        = [collectOne "a" "10.0.0.1" ⟨0, ""⟩, collectOne "a" "10.0.0.2" ⟨0, ""⟩] := rfl
    rw [he]
    exact List.Perm.swap _ _ _

/-- Witness for the amended C7: two distinct-named targets (one reachable,
one failing) whose results complete in reverse order are returned in input
order, and the output has one entry per target. -/
theorem C7_witness :
    (sortResults [⟨"master", "10.0.0.1"⟩, ⟨"worker", "10.0.0.2"⟩]
        [collectOne "worker" "10.0.0.2" ⟨255, "ssh: timeout"⟩,
         collectOne "master" "10.0.0.1" ⟨0, "8"⟩]).length = 2
    ∧ sortResults [⟨"master", "10.0.0.1"⟩, ⟨"worker", "10.0.0.2"⟩]
        [collectOne "worker" "10.0.0.2" ⟨255, "ssh: timeout"⟩,
         collectOne "master" "10.0.0.1" ⟨0, "8"⟩]
      = collectedInOrder [⟨"master", "10.0.0.1"⟩, ⟨"worker", "10.0.0.2"⟩]
          [⟨0, "8"⟩, ⟨255, "ssh: timeout"⟩] := by
  have h := C7_order_restored [⟨"master", "10.0.0.1"⟩, ⟨"worker", "10.0.0.2"⟩]
    [⟨0, "8"⟩, ⟨255, "ssh: timeout"⟩]
    [collectOne "worker" "10.0.0.2" ⟨255, "ssh: timeout"⟩,
     collectOne "master" "10.0.0.1" ⟨0, "8"⟩]
    (by decide)
    (by
      have he : collectedInOrder [⟨"master", "10.0.0.1"⟩, ⟨"worker", "10.0.0.2"⟩]
          [⟨0, "8"⟩, ⟨255, "ssh: timeout"⟩]
          = [collectOne "master" "10.0.0.1" ⟨0, "8"⟩,
             collectOne "worker" "10.0.0.2" ⟨255, "ssh: timeout"⟩] := rfl
      rw [he]
      exact List.Perm.swap _ _ _)
  exact ⟨h.1, h.2 (by decide)⟩

lemma mem_addToMin_of_zero (d : Nat) :
    ∀ (l : List Nat), 0 ∈ l → ∀ z ∈ addToMin d l, z ∈ l ∨ z = d := by
  intro l
  induction l with
  | nil => intro h; simp at h
  | cons x xs ih =>
    intro h0 z hz
    by_cases hmin : xs.all (fun y => x ≤ y)
    · simp only [addToMin, if_pos hmin] at hz
      rcases List.mem_cons.mp hz with hzx | hzxs
      · have hx0 : x = 0 := by
          rcases List.mem_cons.mp h0 with h | h
          · omega
          · have hle : x ≤ 0 := by simpa using List.all_eq_true.mp hmin 0 h
            omega
        right
        omega
      · left
        exact List.mem_cons.mpr (Or.inr hzxs)
    · simp only [addToMin, if_neg hmin] at hz
      have hx0 : x ≠ 0 := by
        intro hx
        apply hmin
        rw [List.all_eq_true]
        intro y _
        simp [hx]
      have h0xs : 0 ∈ xs := by
        rcases List.mem_cons.mp h0 with h | h
        · exact absurd h.symm hx0
        · exact h
      rcases List.mem_cons.mp hz with hzx | hzrest
      · left; exact List.mem_cons.mpr (Or.inl hzx)
      · rcases ih h0xs z hzrest with h | h
        · left; exact List.mem_cons.mpr (Or.inr h)
        · right; exact h

lemma count_zero_addToMin (d : Nat) :
    ∀ (l : List Nat), l.count 0 - 1 ≤ (addToMin d l).count 0 := by
  intro l
  induction l with
  | nil => simp [addToMin]
  | cons x xs ih =>
    by_cases hmin : xs.all (fun y => x ≤ y)
    · simp only [addToMin, if_pos hmin]
      by_cases hxd : x + d = 0
      · have hx0 : x = 0 := by omega
        have h1 : ((x + d) :: xs).count 0 = xs.count 0 + 1 := by
          rw [show x + d = 0 from hxd, List.count_cons_self]
        have h2 : (x :: xs).count 0 = xs.count 0 + 1 := by
          rw [hx0, List.count_cons_self]
        omega
      · have h1 : ((x + d) :: xs).count 0 = xs.count 0 :=
          List.count_cons_of_ne (by omega) xs
        have h2 : (x :: xs).count 0 ≤ xs.count 0 + 1 := by
          by_cases hx : x = 0
          · rw [hx, List.count_cons_self]
          · rw [List.count_cons_of_ne (Ne.symm hx) xs]
            omega
        omega
    · simp only [addToMin, if_neg hmin]
      have hx : x ≠ 0 := by
        intro hxe
        apply hmin
        rw [List.all_eq_true]
        intro y _
        simp [hxe]
      rw [List.count_cons_of_ne (Ne.symm hx) xs,
        List.count_cons_of_ne (Ne.symm hx) (addToMin d xs)]
      exact ih

lemma schedule_all_le (bound : Nat) :
    ∀ (ds loads : List Nat),
    (∀ x ∈ loads, x ≤ bound) → (∀ d ∈ ds, d ≤ bound) →
    ds.length ≤ loads.count 0 →
    ∀ z ∈ ds.foldl (fun loads d => addToMin d loads) loads, z ≤ bound := by
  intro ds
  induction ds with
  | nil =>
    intro loads hl _ _ z hz
    exact hl z hz
  | cons d rest ih =>
    intro loads hl hd hc z hz
    have h0 : 0 ∈ loads := by
      have : 1 ≤ loads.count 0 := by
        simp only [List.length_cons] at hc
        omega
      exact List.count_pos_iff.mp (by omega)
    rw [List.foldl_cons] at hz
    refine ih (addToMin d loads) ?_ (fun x hx => hd x (by simp [hx])) ?_ z hz
    · intro x hx
      rcases mem_addToMin_of_zero d loads h0 x hx with h | h
      · exact hl x h
      · subst h
        exact hd x (by simp)
    · have := count_zero_addToMin d loads
      simp only [List.length_cons] at hc
      omega

lemma foldr_max_le {bound : Nat} :
    ∀ {l : List Nat}, (∀ x ∈ l, x ≤ bound) → l.foldr max 0 ≤ bound := by
  intro l
  induction l with
  | nil => intro _; simp
  | cons x xs ih =>
    intro h
    rw [List.foldr_cons]
    have h1 : x ≤ bound := h x (by simp)
    have h2 : xs.foldr max 0 ≤ bound := ih (fun y hy => h y (by simp [hy]))
    omega

lemma le_foldr_max : ∀ {l : List Nat} {x : Nat}, x ∈ l → x ≤ l.foldr max 0 := by
  intro l
  induction l with
  | nil => intro x hx; simp at hx
  | cons y ys ih =>
    intro x hx
    rw [List.foldr_cons]
    rcases List.mem_cons.mp hx with h | h
    · omega
    · have := ih h
      omega

/-- **C9.** With the pool sized to the target count — exactly
`max_workers=len(vms_to_query)` as in the source — the probe's total
wall-clock time is bounded by the single largest per-target timeout, not
their sum: if each target's collection takes at most its timeout, the
makespan is at most the maximum of the timeouts; in particular, with the
uniform `run_sync` timeout `_SSH_CONNECT_TIMEOUT + 3` every fan-out
finishes within that one per-target bound. -/
theorem C9_latency_bounded_by_slowest :
    (∀ (ds timeouts : List Nat), List.Forall₂ (· ≤ ·) ds timeouts →
      poolMakespan ds.length ds ≤ timeouts.foldr max 0)
    ∧ (∀ ds : List Nat, (∀ d ∈ ds, d ≤ runSyncTimeout) →
      poolMakespan ds.length ds ≤ runSyncTimeout) := by
  have hmain : ∀ (bound : Nat) (ds : List Nat), (∀ d ∈ ds, d ≤ bound) →
      poolMakespan ds.length ds ≤ bound := by
    intro bound ds hd
    apply foldr_max_le
    apply schedule_all_le bound ds (List.replicate ds.length 0)
    · intro x hx
      have := List.eq_of_mem_replicate hx
      omega
    · exact hd
    · rw [List.count_replicate]
      simp
  constructor
  · intro ds timeouts hf
    apply hmain
    intro d hd
    obtain ⟨i, hi, hget⟩ := List.mem_iff_getElem.mp hd
    have hlen := hf.length_eq
    have hle := List.forall₂_iff_get.mp hf
    have hi' : i < timeouts.length := by omega
    calc d = ds[i] := hget.symm
      _ ≤ timeouts[i] := by simpa using hle.2 i hi hi'
      _ ≤ timeouts.foldr max 0 := le_foldr_max (List.getElem_mem hi')
  · intro ds h
    exact hmain runSyncTimeout ds h

/-- Witness for C9: three targets taking 2 s, 8 s (timed out) and 1 s
finish within the 8-second per-target timeout, not the 11-second sum. -/
theorem C9_witness :
    poolMakespan 3 [2, 8, 1] ≤ runSyncTimeout
    ∧ poolMakespan 3 [2, 8, 1] ≤ [5, 8, 8].foldr max 0 := by
  constructor
  · exact C9_latency_bounded_by_slowest.2 [2, 8, 1] (by decide)
  · exact C9_latency_bounded_by_slowest.1 [2, 8, 1] [5, 8, 8] (by decide)

end LabDashboard
